import Mathlib

/-!
Verification development for the reddit-persona pipeline.

The Python modules `src/data_processor.py` and `src/persona_generator.py` are
embedded shallowly: each Python function becomes a Lean function of the same
name (minus the leading underscore), dictionaries become structures, Python
floats used only for ordering/averaging become rationals, and the
configuration value `min_content_length` (from the absent `config.py`) is
threaded as an explicit parameter.  Strings are modelled at the level of
Unicode code points (`List Char`), matching Python `str` semantics for the
ASCII data manipulated here.
-/

namespace RedditPersona

/-- The six whitespace characters recognised by Python's `str.split()` /
`str.strip()` on ASCII text: space, tab, newline, carriage return,
vertical tab, form feed. -/
def pyIsSpace (c : Char) : Bool :=
  c = ' ' || c = '\t' || c = '\n' || c = '\r' ||
  c = Char.ofNat 11 || c = Char.ofNat 12

theorem length_dropWhile_le {α : Type} (p : α → Bool) (l : List α) :
    (l.dropWhile p).length ≤ l.length := by
  induction l with
  | nil => simp
  | cons a l ih =>
    by_cases h : p a <;> simp [List.dropWhile_cons, h] <;> omega

/-- Python `str.split()` (no separator): split on runs of whitespace,
dropping leading/trailing whitespace; tokens are the maximal
non-whitespace runs, in order. -/
def splitWs (l : List Char) : List (List Char) :=
  match h : l.dropWhile pyIsSpace with
  | [] => []
  | c :: rest =>
    (c :: rest.takeWhile (fun d => !pyIsSpace d)) ::
      splitWs (rest.dropWhile (fun d => !pyIsSpace d))
termination_by l.length
decreasing_by
  have h1 := length_dropWhile_le pyIsSpace l
  rw [h] at h1
  have h2 := length_dropWhile_le (fun d => !pyIsSpace d) rest
  simp at h1 ⊢
  omega

/-- Python `' '.join(tokens)`. -/
def joinSp : List (List Char) → List Char
  | [] => []
  | [t] => t
  | t :: t' :: ts => t ++ ' ' :: joinSp (t' :: ts)

/-- Python `str.strip()`: drop whitespace from both ends. -/
def stripWs (l : List Char) : List Char :=
  ((l.dropWhile pyIsSpace).reverse.dropWhile pyIsSpace).reverse

/-- Python `str.lower()` (ASCII model, sufficient for the sentinel strings
compared by the content filter). -/
def pyLower (s : String) : String :=
  String.mk (s.data.map Char.toLower)

/-- Characters matched by one iteration of the character-class alternation in
the URL regex of `_clean_text`
(`http[s]?://(?:[a-zA-Z]|[0-9]|[$-_@.&+]|[!*\\(\\),]|(?:%[0-9a-fA-F][0-9a-fA-F]))+`):
ASCII letters and digits, the range `$`..`_` (codes 36-95, which already
contains the digits, uppercase letters, `%` and the hex digits), and the
explicitly listed `!`, `*`, `\`, `(`, `)`, `,`. -/
def isUrlChar (c : Char) : Bool :=
  ('a' ≤ c && c ≤ 'z') || ('A' ≤ c && c ≤ 'Z') || ('0' ≤ c && c ≤ '9') ||
  (36 ≤ c.toNat && c.toNat ≤ 95) ||
  c = '!' || c = '*' || c = '\\' || c = '(' || c = ')' || c = ','

/-- Model of `re.sub(urlRegex, '', text)`: leftmost-match scan; a match is
`http`, an optional `s`, `://`, then a maximal (greedy) nonempty run of URL
characters; the match is deleted and scanning resumes after it, otherwise
the scan advances one character. -/
def removeUrls : List Char → List Char
  | 'h' :: 't' :: 't' :: 'p' :: 's' :: ':' :: '/' :: '/' :: c :: rest =>
      if isUrlChar c then removeUrls ((c :: rest).dropWhile isUrlChar)
      else 'h' :: removeUrls ('t' :: 't' :: 'p' :: 's' :: ':' :: '/' :: '/' :: c :: rest)
  | 'h' :: 't' :: 't' :: 'p' :: ':' :: '/' :: '/' :: c :: rest =>
      if isUrlChar c then removeUrls ((c :: rest).dropWhile isUrlChar)
      else 'h' :: removeUrls ('t' :: 't' :: 'p' :: ':' :: '/' :: '/' :: c :: rest)
  | c :: rest => c :: removeUrls rest
  | [] => []
termination_by l => l.length
decreasing_by
  all_goals simp_arith
  all_goals (refine le_trans (length_dropWhile_le isUrlChar (c :: rest)) ?_; simp_arith)

/-- Python `\w` (ASCII model): letters, digits, underscore. -/
def isWordChar (c : Char) : Bool :=
  c.isAlpha || c.isDigit || c = '_'

/-- Model of `re.sub(r'/u/\w+', '', text)` (and the same for `/r/`): delete `/`,
the marker letter `m`, `/`, and a maximal nonempty run of word characters. -/
def removeMentions (m : Char) : List Char → List Char
  | '/' :: x :: '/' :: c :: rest =>
      if x = m && isWordChar c then
        removeMentions m ((c :: rest).dropWhile isWordChar)
      else '/' :: removeMentions m (x :: '/' :: c :: rest)
  | c :: rest => c :: removeMentions m rest
  | [] => []
termination_by l => l.length
decreasing_by
  all_goals simp_arith
  all_goals (refine le_trans (length_dropWhile_le isWordChar (c :: rest)) ?_; simp_arith)

/-- Locate the closing `mm` of a non-greedy `mm(.*?)mm` match: the inner
text is the shortest newline-free prefix followed by `mm` (regex `.` does
not match a newline); return the inner text and the suffix after the
closing pair. -/
def findClose2 (m : Char) : List Char → Option (List Char × List Char)
  | a :: b :: rest =>
      if a = m && b = m then some ([], rest)
      else if a = '\n' then none
      else (findClose2 m (b :: rest)).map (fun p => (a :: p.1, p.2))
  | [_] => none
  | [] => none

theorem findClose2_length (m : Char) (l : List Char) :
    ∀ p : List Char × List Char, findClose2 m l = some p → p.2.length < l.length := by
  induction l with
  | nil => intro p h; simp [findClose2] at h
  | cons a t ih =>
    intro p h
    cases t with
    | nil => simp [findClose2] at h
    | cons b rest =>
      simp only [findClose2] at h
      split at h
      · cases h; simp; omega
      · split at h
        · cases h
        · cases hm : findClose2 m (b :: rest) with
          | none => rw [hm] at h; cases h
          | some q =>
            rw [hm] at h
            cases h
            have := ih q hm
            simp at this ⊢
            omega

/-- Model of `re.sub(r'mm(.*?)mm', r'\1', text)` for a doubled marker (`**` bold,
`~~` strikethrough): replace each match by its inner text (the replacement
is not rescanned), advancing one character when no match starts here. -/
def unwrapDouble (m : Char) : List Char → List Char
  | a :: b :: rest =>
      if a = m && b = m then
        match h : findClose2 m rest with
        | some (inner, r) => inner ++ unwrapDouble m r
        | none => a :: unwrapDouble m (b :: rest)
      else a :: unwrapDouble m (b :: rest)
  | [a] => [a]
  | [] => []
termination_by l => l.length
decreasing_by
  all_goals simp_arith
  have := findClose2_length m rest (inner, r) h
  simp at this
  omega

/-- Locate the closing `m` of a non-greedy `m(.*?)m` match. -/
def findClose1 (m : Char) : List Char → Option (List Char × List Char)
  | a :: rest =>
      if a = m then some ([], rest)
      else if a = '\n' then none
      else (findClose1 m rest).map (fun p => (a :: p.1, p.2))
  | [] => none

theorem findClose1_length (m : Char) (l : List Char) :
    ∀ p : List Char × List Char, findClose1 m l = some p → p.2.length < l.length := by
  induction l with
  | nil => intro p h; simp [findClose1] at h
  | cons a t ih =>
    intro p h
    simp only [findClose1] at h
    split at h
    · cases h; simp
    · split at h
      · cases h
      · cases hm : findClose1 m t with
        | none => rw [hm] at h; cases h
        | some q =>
          rw [hm] at h
          cases h
          have := ih q hm
          simp at this ⊢
          omega

/-- Model of `re.sub(r'\*(.*?)\*', r'\1', text)`: unwrap single-marker emphasis. -/
def unwrapSingle (m : Char) : List Char → List Char
  | a :: rest =>
      if a = m then
        match h : findClose1 m rest with
        | some (inner, r) => inner ++ unwrapSingle m r
        | none => a :: unwrapSingle m rest
      else a :: unwrapSingle m rest
  | [] => []
termination_by l => l.length
decreasing_by
  all_goals simp_arith
  have := findClose1_length m rest (inner, r) h
  simp at this
  omega

/-- Model of `re.sub(r'&gt;', '>', text)`. -/
def decodeGt : List Char → List Char
  | '&' :: 'g' :: 't' :: ';' :: rest => '>' :: decodeGt rest
  | c :: rest => c :: decodeGt rest
  | [] => []

/-- Model of `re.sub(r'&lt;', '<', text)`. -/
def decodeLt : List Char → List Char
  | '&' :: 'l' :: 't' :: ';' :: rest => '<' :: decodeLt rest
  | c :: rest => c :: decodeLt rest
  | [] => []

/-- Model of `re.sub(r'&amp;', '&', text)`. -/
def decodeAmp : List Char → List Char
  | '&' :: 'a' :: 'm' :: 'p' :: ';' :: rest => '&' :: decodeAmp rest
  | c :: rest => c :: decodeAmp rest
  | [] => []

/-- The substitution pipeline of `_clean_text` in source order: URLs,
`/u/` mentions, `/r/` mentions, bold, italic, strikethrough, the three
HTML entities, then `' '.join(text.split())` and `text.strip()`. -/
def cleanChars (l : List Char) : List Char :=
  stripWs (joinSp (splitWs (decodeAmp (decodeLt (decodeGt
    (unwrapDouble '~' (unwrapSingle '*' (unwrapDouble '*'
      (removeMentions 'r' (removeMentions 'u' (removeUrls l)))))))))))

/-- Model of `DataProcessor._clean_text` (src/src/data_processor.py:164-185). -/
def clean_text (text : String) : String :=
  if text = "" then "" else String.mk (cleanChars text.data)

/-- Model of `DataProcessor._is_valid_content` (src/src/data_processor.py:187-204).
`PERSONA_CONFIG['min_content_length']` lives in the repository's `config.py`
which is not under `src/`; it is passed here as the parameter `minLen`. -/
def is_valid_content (minLen : Nat) (content : String) : Bool :=
  if content = "" then false
  else if content.length < minLen then false
  else if pyLower content ∈ ["[deleted]", "[removed]", "deleted", "removed"] then false
  else if (splitWs content.data).length < 3 then false
  else true

/-! ## Data model

Cleaned post/comment dictionaries from `_clean_post` / `_clean_comment`.
Python numbers used as sort keys or ratios (`created_utc`, `upvote_ratio`)
are modelled as rationals, integer fields as integers.  The `'type'` tag is
implicit in the Lean type, and the config-gated `sentiment` annotation
(`PERSONA_CONFIG['analyze_sentiment']` from the absent `config.py`) is not
modelled: it adds a key no other code path of the claims reads and leaves
every other field unchanged. -/

structure Post where
  id           : String
  title        : String
  content      : String
  subreddit    : String
  created_utc  : ℚ
  score        : ℤ
  num_comments : ℤ
  url          : String
  upvote_ratio : ℚ
deriving Repr, DecidableEq

structure Comment where
  id                : String
  content           : String
  subreddit         : String
  created_utc       : ℚ
  score             : ℤ
  url               : String
  parent_post_title : String
deriving Repr, DecidableEq

/-- Model of `DataProcessor._clean_post` (src/src/data_processor.py:110-136): copy the
record, normalizing `title` and `content` with `_clean_text`.  The Python
`try/except` guards only malformed dynamic input, which a typed record rules
out, so the model is total. -/
def clean_post (p : Post) : Post :=
  { p with title := clean_text p.title, content := clean_text p.content }

/-- Model of `DataProcessor._clean_comment` (src/src/data_processor.py:138-162). -/
def clean_comment (c : Comment) : Comment :=
  { c with content := clean_text c.content }

/-! ## Stable descending sort

Python's `list.sort(key=..., reverse=True)` and `sorted(..., reverse=True)`
are stable: equal-key items keep their original relative order, and
`reverse=True` reverses the comparison, not the list.  A stable sort is
extensionally unique — it is determined by being a permutation, being
sorted by the key, and preserving the order inside every equal-key class —
so the structurally recursive insertion sort below is a faithful model. -/

def insertDesc {α κ : Type} [LinearOrder κ] (key : α → κ) (x : α) : List α → List α
  | [] => [x]
  | y :: ys => if key y ≤ key x then x :: y :: ys else y :: insertDesc key x ys

def sortDesc {α κ : Type} [LinearOrder κ] (key : α → κ) (l : List α) : List α :=
  l.foldr (insertDesc key) []

/-- Model of `DataProcessor._process_posts` (src/src/data_processor.py:63-77): clean
each post, keep those whose cleaned `content` passes `_is_valid_content`,
then stable-sort by `created_utc` newest-first. -/
def process_posts (minLen : Nat) (posts : List Post) : List Post :=
  sortDesc Post.created_utc
    ((posts.map clean_post).filter (fun p => is_valid_content minLen p.content))

/-- Model of `DataProcessor._process_comments` (src/src/data_processor.py:79-93). -/
def process_comments (minLen : Nat) (comments : List Comment) : List Comment :=
  sortDesc Comment.created_utc
    ((comments.map clean_comment).filter (fun c => is_valid_content minLen c.content))

/-! ## Statistics -/

/-- One step of `subreddit_activity[s] = subreddit_activity.get(s, 0) + 1` on
a Python dict, modelled as an association list: dicts preserve insertion
order, and updating an existing key keeps its position. -/
def bump (h : List (String × Nat)) (s : String) : List (String × Nat) :=
  match h with
  | [] => [(s, 1)]
  | (k, v) :: rest => if k = s then (k, v + 1) :: rest else (k, v) :: bump rest s

/-- The activity histogram of `_generate_statistics`
(src/src/data_processor.py:274-282): count posts first, then comments. -/
def subreddit_activity (posts : List Post) (comments : List Comment) : List (String × Nat) :=
  ((posts.map Post.subreddit) ++ (comments.map Comment.subreddit)).foldl bump []

/-- Model of `DataProcessor._calculate_average_content_length`
(src/src/data_processor.py:300-311): average length over the items with
non-empty content, `0` when there are none. -/
def calculate_average_content_length (contents : List String) : ℚ :=
  let acc := contents.foldl
    (fun (a : Nat × Nat) c => if c ≠ "" then (a.1 + c.length, a.2 + 1) else a) (0, 0)
  if acc.2 > 0 then (acc.1 : ℚ) / acc.2 else 0

structure Statistics where
  total_posts           : Nat
  total_comments        : Nat
  average_post_score    : ℚ
  average_comment_score : ℚ
  top_subreddits        : List (String × Nat)
  most_active_subreddit : Option String
  subreddit_diversity   : Nat
  content_length_avg    : ℚ
deriving Repr, DecidableEq

/-- Model of `DataProcessor._generate_statistics` (src/src/data_processor.py:265-298). -/
def generate_statistics (posts : List Post) (comments : List Comment) : Statistics :=
  let post_scores := posts.map Post.score
  let comment_scores := comments.map Comment.score
  let activity := subreddit_activity posts comments
  let top := (sortDesc (fun e : String × Nat => e.2) activity).take 10
  { total_posts := posts.length
    total_comments := comments.length
    average_post_score :=
      if post_scores = [] then 0 else (post_scores.sum : ℚ) / post_scores.length
    average_comment_score :=
      if comment_scores = [] then 0 else (comment_scores.sum : ℚ) / comment_scores.length
    top_subreddits := top
    most_active_subreddit := top.head?.map Prod.fst
    subreddit_diversity := activity.length
    content_length_avg :=
      calculate_average_content_length (posts.map Post.content ++ comments.map Comment.content) }

/-- Python-dict key order: the first-encounter order of the values fed to
the histogram. -/
def firstOccurrences (l : List String) : List String :=
  l.foldl (fun acc s => if s ∈ acc then acc else acc ++ [s]) []

/-! ## Persona generator (src/src/persona_generator.py)

The six per-facet analysis functions differ only in the prompt and system
role they send to the OpenAI backend and in their fallback string.  The
backend (an external network service) is modelled as a function from the
facet and the truncated evidence text to `Except Unit String`: `.ok` is the
returned completion, `.error` a raised exception.  Prompt templates live in
the absent `config.py` and only shape the request, never the control flow,
so they are not modelled.  `datetime.now()` is passed in as `timestamp`. -/

inductive Facet
  | demographics
  | personality
  | interests
  | behaviors
  | motivations
  | frustrations
deriving DecidableEq, Repr

/-- One citation dictionary built by `_extract_citations`
(src/src/persona_generator.py:325-353): the `title` key exists only for
posts. -/
structure Citation where
  ctype     : String
  content   : String
  title     : Option String
  url       : String
  subreddit : String
deriving Repr, DecidableEq

/-- The analysis-and-citations record returned by each `_analyze_*`. -/
structure FacetResult where
  analysis  : String
  citations : List Citation
deriving Repr, DecidableEq

/-- The processed user-data dictionary consumed by `PersonaGenerator`:
the output of `DataProcessor.process_user_data` plus the karma fields.
`subreddits` holds the tag names handed onward (the source defensively
coerces its dict records to strings; the claims never inspect that text). -/
structure UserData where
  username         : String
  account_age_days : Nat
  post_karma       : ℤ
  comment_karma    : ℤ
  posts            : List Post
  comments         : List Comment
  subreddits       : List String
deriving Repr, DecidableEq

/-- The citation record built from a post by `_extract_citations`. -/
def postCitation (p : Post) : Citation :=
  ⟨"post", p.content, some p.title, p.url, p.subreddit⟩

/-- The citation record built from a comment by `_extract_citations`
(no `title` key). -/
def commentCitation (c : Comment) : Citation :=
  ⟨"comment", c.content, none, c.url, c.subreddit⟩

/-- Model of `PersonaGenerator._extract_citations`
(src/src/persona_generator.py:325-353): list all posts, then all comments,
and return the first 5 records; the `analysis` argument is never read. -/
def extract_citations (analysis : String) (ud : UserData) : List Citation :=
  let _ := analysis
  ((ud.posts.map postCitation) ++ (ud.comments.map commentCitation)).take 5

/-- Model of `PersonaGenerator._extract_content_for_analysis`
(src/src/persona_generator.py:79-95): post titles, post bodies longer than
`min_content_length`, then comment bodies longer than it, joined by blank
lines. -/
def extract_content_for_analysis (minLen : Nat) (ud : UserData) : String :=
  String.intercalate "\n\n"
    ((ud.posts.flatMap fun p =>
        (if p.title ≠ "" then ["POST TITLE: " ++ p.title] else []) ++
        (if p.content ≠ "" && minLen < p.content.length
          then ["POST CONTENT: " ++ p.content] else [])) ++
      (ud.comments.flatMap fun c =>
        if c.content ≠ "" && minLen < c.content.length
          then ["COMMENT: " ++ c.content] else []))

/-- The basic-info record built from `_generate_basic_info`
(src/src/persona_generator.py:97-113). -/
structure BasicInfo where
  username          : String
  account_age_days  : Nat
  total_posts       : Nat
  total_comments    : Nat
  post_karma        : ℤ
  comment_karma     : ℤ
  active_subreddits : List String
deriving Repr, DecidableEq

def generate_basic_info (ud : UserData) : BasicInfo :=
  ⟨ud.username, ud.account_age_days, ud.posts.length, ud.comments.length,
    ud.post_karma, ud.comment_karma, ud.subreddits⟩

/-- The per-facet fallback strings of the `except` branches of
`_analyze_demographics` .. `_analyze_frustrations`. -/
def fallbackText : Facet → String
  | .demographics => "Unable to analyze demographics"
  | .personality  => "Unable to analyze personality"
  | .interests    => "Unable to analyze interests"
  | .behaviors    => "Unable to analyze behaviors"
  | .motivations  => "Unable to analyze motivations"
  | .frustrations => "Unable to analyze frustrations"

/-- Common body of the six `_analyze_*` functions
(src/src/persona_generator.py:115-323): call the backend on the evidence
text truncated to 3000 characters; on success attach citations when
enabled, on failure substitute the facet's fallback string with no
citations. -/
def analyze_facet (f : Facet) (content : String) (inclCitations : Bool)
    (ud : UserData) (backend : Facet → String → Except Unit String) : FacetResult :=
  match backend f (content.take 3000) with
  | .ok a => ⟨a, if inclCitations then extract_citations a ud else []⟩
  | .error _ => ⟨fallbackText f, []⟩

/-- Python `str.upper()` (ASCII model). -/
def pyUpper (s : String) : String :=
  String.mk (s.data.map Char.toUpper)

/-- The separator line `'='*80`. -/
def eqLine : String :=
  String.mk (List.replicate 80 '=')

/-- The numbered source lines of the citations appendix
(src/src/persona_generator.py:437-440), `enumerate(..., 1)`. -/
def citationLines : Nat → List Citation → String
  | _, [] => ""
  | i, c :: rest =>
      toString i ++ ". " ++ pyUpper c.ctype ++ ": " ++
      (match c.title with | some t => t | none => c.content.take 100) ++ "...\n" ++
      "   URL: " ++ c.url ++ "\n" ++
      "   Subreddit: r/" ++ c.subreddit ++ "\n\n" ++
      citationLines (i + 1) rest

/-- The main body of the `_format_persona` f-string
(src/src/persona_generator.py:367-423): header, basic-info block and the
six facet sections. -/
def personaCore (sections : Facet → FacetResult) (basic : BasicInfo)
    (ud : UserData) (timestamp : String) : String :=
  let subreddits_str :=
    if basic.active_subreddits ≠ []
      then String.intercalate ", " (basic.active_subreddits.take 10)
      else "None"
  "\n" ++ eqLine ++ "\nUSER PERSONA: " ++ ud.username ++ "\n" ++ eqLine ++
    "\n\nGenerated on: " ++ timestamp ++
    "\nAnalysis based on " ++ toString ud.posts.length ++ " posts and " ++
    toString ud.comments.length ++ " comments\n\n" ++
    eqLine ++ "\nBASIC INFORMATION\n" ++ eqLine ++ "\n\n" ++
    "Username: " ++ basic.username ++
    "\nAccount Age: " ++ toString basic.account_age_days ++ " days" ++
    "\nTotal Posts: " ++ toString basic.total_posts ++
    "\nTotal Comments: " ++ toString basic.total_comments ++
    "\nPost Karma: " ++ toString basic.post_karma ++
    "\nComment Karma: " ++ toString basic.comment_karma ++
    "\nActive Subreddits: " ++ subreddits_str ++ "\n\n" ++
    eqLine ++ "\nDEMOGRAPHICS\n" ++ eqLine ++ "\n\n" ++
    (sections .demographics).analysis ++ "\n\n" ++
    eqLine ++ "\nPERSONALITY TRAITS\n" ++ eqLine ++ "\n\n" ++
    (sections .personality).analysis ++ "\n\n" ++
    eqLine ++ "\nINTERESTS & HOBBIES\n" ++ eqLine ++ "\n\n" ++
    (sections .interests).analysis ++ "\n\n" ++
    eqLine ++ "\nBEHAVIORS & HABITS\n" ++ eqLine ++ "\n\n" ++
    (sections .behaviors).analysis ++ "\n\n" ++
    eqLine ++ "\nMOTIVATIONS & GOALS\n" ++ eqLine ++ "\n\n" ++
    (sections .motivations).analysis ++ "\n\n" ++
    eqLine ++ "\nFRUSTRATIONS & PAIN POINTS\n" ++ eqLine ++ "\n\n" ++
    (sections .frustrations).analysis ++ "\n\n"

/-- The citations appendix added when citations are enabled
(src/src/persona_generator.py:426-440): up to 5 sources of the
demographics facet specifically. -/
def personaCitationsBlock (sections : Facet → FacetResult) : String :=
  "\n" ++ eqLine ++ "\nCITATIONS & SOURCES\n" ++ eqLine ++
  "\n\nThe following sources were used to generate this persona:\n\n" ++
  citationLines 1 ((sections .demographics).citations.take 5)

/-- The fixed disclaimer footer (src/src/persona_generator.py:442-453). -/
def personaDisclaimer (timestamp : String) : String :=
  "\n" ++ eqLine ++ "\nDISCLAIMER\n" ++ eqLine ++
  "\n\nThis persona is generated based on publicly available Reddit activity and should be \nused for research and educational purposes only. The analysis represents patterns \nobserved in the user's online behavior and may not reflect their complete personality \nor circumstances.\n\nGeneration completed at: " ++ timestamp ++ "\n"

/-- Model of `PersonaGenerator._format_persona` (src/src/persona_generator.py:355-455). -/
def format_persona (sections : Facet → FacetResult) (basic : BasicInfo)
    (ud : UserData) (inclCitations : Bool) (timestamp : String) : String :=
  (if inclCitations then
      personaCore sections basic ud timestamp ++ personaCitationsBlock sections
    else personaCore sections basic ud timestamp) ++
  personaDisclaimer timestamp

/-- Model of `PersonaGenerator.generate_persona` (src/src/persona_generator.py:30-77):
empty evidence text aborts with a fixed message; otherwise the six facet
analyses run and the document is rendered. -/
def generate_persona (minLen : Nat) (inclCitations : Bool) (ud : UserData)
    (backend : Facet → String → Except Unit String) (timestamp : String) : String :=
  let content := extract_content_for_analysis minLen ud
  if content = "" then "Unable to generate persona: No content available"
  else
    format_persona (fun f => analyze_facet f content inclCitations ud backend)
      (generate_basic_info ud) ud inclCitations timestamp

/-! ## Substring search used to state document-containment properties. -/

def startsWithL : List Char → List Char → Bool
  | [], _ => true
  | _ :: _, [] => false
  | p :: ps, c :: cs => p = c && startsWithL ps cs

def hasSub (pat : List Char) : List Char → Bool
  | [] => pat.isEmpty
  | c :: rest => startsWithL pat (c :: rest) || hasSub pat rest

/-- Python `pat in s`. -/
def containsStr (pat s : String) : Bool :=
  hasSub pat.data s.data

/-! ## Sample data used by the closed witness/counterexample theorems. -/

def emptyUser : UserData := ⟨"u", 0, 0, 0, [], [], []⟩

def samplePost : Post :=
  ⟨"p1", "My title", "I love programming in python and building cool apps",
    "programming", 200, 10, 2, "http://u/p1", 1⟩

def sampleUser : UserData := ⟨"kojied", 100, 5, 7, [samplePost], [], ["programming"]⟩

def fineBackend : Facet → String → Except Unit String :=
  fun _ _ => .ok "Looks fine."

def failPersonalityBackend : Facet → String → Except Unit String :=
  fun f s => if f = .personality then .error () else fineBackend f s

/-- Well-formed token: nonempty and whitespace-free. -/
def tokenWF (t : List Char) : Prop :=
  t ≠ [] ∧ ∀ c ∈ t, pyIsSpace c = false

/-- No rewrite of `_clean_text` other than whitespace collapsing can fire on
a string satisfying this predicate: it has no `http`, `/u/` or `/r/`
substring and none of the characters `*`, `~`, `&`. -/
def triggerFree (l : List Char) : Bool :=
  !(hasSub ['h','t','t','p'] l) && !(hasSub ['/','u','/'] l) && !(hasSub ['/','r','/'] l) &&
  l.all (fun c => !(c = '*' || c = '~' || c = '&'))

/-! ## Theorems -/

/-- C2: the content filter returns `false` iff the text is empty, or shorter
than `min_length`, or case-insensitively equal to one of the removal
sentinels, or has fewer than 3 whitespace-separated tokens; it returns
`true` on every other input. -/
theorem is_valid_content_false_iff (minLen : Nat) (content : String) :
    is_valid_content minLen content = false ↔
      (content = "" ∨ content.length < minLen ∨
        pyLower content ∈ (["[deleted]", "[removed]", "deleted", "removed"] : List String) ∨
        (splitWs content.data).length < 3) := by
  unfold is_valid_content
  split_ifs <;> simp_all

theorem insertDesc_perm {α κ : Type} [LinearOrder κ] (key : α → κ) (x : α) (l : List α) :
    (insertDesc key x l).Perm (x :: l) := by
  induction l with
  | nil => simp [insertDesc]
  | cons y ys ih =>
    simp only [insertDesc]
    split
    · exact List.Perm.refl _
    · exact ((ih.cons y).trans (List.Perm.swap x y ys))

theorem sortDesc_perm {α κ : Type} [LinearOrder κ] (key : α → κ) (l : List α) :
    (sortDesc key l).Perm l := by
  induction l with
  | nil => simp [sortDesc]
  | cons x xs ih =>
    exact (insertDesc_perm key x (sortDesc key xs)).trans (ih.cons x)

theorem mem_insertDesc {α κ : Type} [LinearOrder κ] (key : α → κ) (x z : α) (l : List α) :
    z ∈ insertDesc key x l ↔ z = x ∨ z ∈ l := by
  rw [(insertDesc_perm key x l).mem_iff]
  simp

theorem insertDesc_pairwise {α κ : Type} [LinearOrder κ] (key : α → κ) (x : α) (l : List α)
    (h : l.Pairwise (fun a b => key b ≤ key a)) :
    (insertDesc key x l).Pairwise (fun a b => key b ≤ key a) := by
  induction l with
  | nil => simp [insertDesc]
  | cons y ys ih =>
    rw [List.pairwise_cons] at h
    simp only [insertDesc]
    split
    · rename_i hle
      refine List.pairwise_cons.mpr ⟨?_, List.pairwise_cons.mpr h⟩
      intro z hz
      rcases List.mem_cons.mp hz with rfl | hz'
      · exact hle
      · exact le_trans (h.1 z hz') hle
    · rename_i hgt
      push_neg at hgt
      refine List.pairwise_cons.mpr ⟨?_, ih h.2⟩
      intro z hz
      rcases (mem_insertDesc key x z ys).mp hz with rfl | hz'
      · exact le_of_lt hgt
      · exact h.1 z hz'

theorem sortDesc_pairwise {α κ : Type} [LinearOrder κ] (key : α → κ) (l : List α) :
    (sortDesc key l).Pairwise (fun a b => key b ≤ key a) := by
  induction l with
  | nil => simp [sortDesc]
  | cons x xs ih => exact insertDesc_pairwise key x _ ih

theorem insertDesc_filter_key {α κ : Type} [LinearOrder κ] (key : α → κ) (x : α) (t : κ)
    (l : List α) :
    (insertDesc key x l).filter (fun a => decide (key a = t)) =
      if key x = t then x :: l.filter (fun a => decide (key a = t))
      else l.filter (fun a => decide (key a = t)) := by
  induction l with
  | nil => by_cases hx : key x = t <;> simp [insertDesc, hx]
  | cons y ys ih =>
    simp only [insertDesc]
    by_cases hx : key x = t
    · split
      · simp [hx]
      · rename_i hgt
        push_neg at hgt
        have hy : ¬ (key y = t) := by
          intro hyt
          rw [hyt, ← hx] at hgt
          exact lt_irrefl _ hgt
        simp [List.filter_cons, hy, ih, hx]
    · split
      · simp [List.filter_cons, hx]
      · simp [List.filter_cons, ih, hx]

/-- Stability of the modelled Python sort: within every equal-key class the
sorted list preserves the input order. -/
theorem sortDesc_stable {α κ : Type} [LinearOrder κ] (key : α → κ) (t : κ) (l : List α) :
    (sortDesc key l).filter (fun a => decide (key a = t)) =
      l.filter (fun a => decide (key a = t)) := by
  induction l with
  | nil => simp [sortDesc]
  | cons x xs ih =>
    show (insertDesc key x (sortDesc key xs)).filter _ = _
    rw [insertDesc_filter_key]
    by_cases hx : key x = t <;> simp [List.filter_cons, hx, ih]

/-- C4: aggregation returns exactly the surviving posts, and separately the
surviving comments, sorted by `created_utc` descending, with equal-timestamp
items keeping their original relative order (stable sort). -/
theorem process_sorted_stable (minLen : Nat) (posts : List Post) (comments : List Comment) :
    ((process_posts minLen posts).Perm
        ((posts.map clean_post).filter (fun p => is_valid_content minLen p.content)) ∧
      (process_posts minLen posts).Pairwise (fun a b => b.created_utc ≤ a.created_utc) ∧
      (∀ t : ℚ, (process_posts minLen posts).filter (fun p => decide (p.created_utc = t)) =
        ((posts.map clean_post).filter (fun p => is_valid_content minLen p.content)).filter
          (fun p => decide (p.created_utc = t)))) ∧
    ((process_comments minLen comments).Perm
        ((comments.map clean_comment).filter (fun c => is_valid_content minLen c.content)) ∧
      (process_comments minLen comments).Pairwise (fun a b => b.created_utc ≤ a.created_utc) ∧
      (∀ t : ℚ, (process_comments minLen comments).filter (fun c => decide (c.created_utc = t)) =
        ((comments.map clean_comment).filter (fun c => is_valid_content minLen c.content)).filter
          (fun c => decide (c.created_utc = t)))) := by
  refine ⟨⟨sortDesc_perm _ _, sortDesc_pairwise _ _, fun t => sortDesc_stable _ t _⟩,
    ⟨sortDesc_perm _ _, sortDesc_pairwise _ _, fun t => sortDesc_stable _ t _⟩⟩

/-- C5: on an empty corpus every count and every mean of the statistics is
zero; each division in the source is guarded by the corresponding
emptiness check, mirrored here by the `if`s of `generate_statistics` and
`calculate_average_content_length`. -/
theorem statistics_empty_zero :
    (generate_statistics [] []).total_posts = 0 ∧
    (generate_statistics [] []).total_comments = 0 ∧
    (generate_statistics [] []).average_post_score = 0 ∧
    (generate_statistics [] []).average_comment_score = 0 ∧
    (generate_statistics [] []).content_length_avg = 0 :=
  ⟨rfl, rfl, rfl, rfl, rfl⟩

/-- C10: on an empty corpus `most_active_subreddit` is the `None` sentinel
and `top_subreddits` is the empty list. -/
theorem statistics_empty_most_active :
    (generate_statistics [] []).most_active_subreddit = none ∧
    (generate_statistics [] []).top_subreddits = [] :=
  ⟨rfl, rfl⟩

theorem bump_keys (acc : List (String × Nat)) (s : String) :
    (bump acc s).map Prod.fst =
      if s ∈ acc.map Prod.fst then acc.map Prod.fst else acc.map Prod.fst ++ [s] := by
  induction acc with
  | nil => simp [bump]
  | cons kv rest ih =>
    obtain ⟨k, v⟩ := kv
    simp only [bump]
    by_cases hk : k = s
    · subst hk
      simp
    · have hne : ¬ s = k := fun h => hk h.symm
      by_cases hmem : s ∈ rest.map Prod.fst
      · simp [hk, ih, hmem, hne]
      · simp [hk, ih, hmem, hne]

theorem foldl_bump_keys (l : List String) :
    ∀ acc : List (String × Nat),
      ((l.foldl bump acc).map Prod.fst) =
        l.foldl (fun a s => if s ∈ a then a else a ++ [s]) (acc.map Prod.fst) := by
  induction l with
  | nil => intro acc; simp
  | cons x xs ih =>
    intro acc
    simp only [List.foldl_cons]
    rw [ih (bump acc x), bump_keys]

theorem bump_ne_nil (acc : List (String × Nat)) (s : String) : bump acc s ≠ [] := by
  cases acc with
  | nil => simp [bump]
  | cons kv rest =>
    obtain ⟨k, v⟩ := kv
    simp only [bump]
    split <;> simp

theorem foldl_bump_ne_nil (l : List String) :
    ∀ acc : List (String × Nat), acc ≠ [] ∨ l ≠ [] → l.foldl bump acc ≠ [] := by
  induction l with
  | nil =>
    intro acc h
    simpa using h.resolve_right (by simp)
  | cons x xs ih =>
    intro acc _
    simp only [List.foldl_cons]
    exact ih (bump acc x) (Or.inl (bump_ne_nil acc x))

/-- C9: `top_subreddits` holds at most 10 pairs, ordered by activity count
descending; the histogram's key order is the first-encounter order of the
tags (posts counted before comments) and the sort preserves it inside every
equal-count class; on a non-empty corpus `most_active_subreddit` is the tag
of the first pair. -/
theorem top_subreddits_spec (posts : List Post) (comments : List Comment) :
    ((generate_statistics posts comments).top_subreddits).length ≤ 10 ∧
    ((generate_statistics posts comments).top_subreddits).Pairwise (fun a b => b.2 ≤ a.2) ∧
    (subreddit_activity posts comments).map Prod.fst =
      firstOccurrences (posts.map Post.subreddit ++ comments.map Comment.subreddit) ∧
    (∀ n : Nat,
      (sortDesc (fun e : String × Nat => e.2) (subreddit_activity posts comments)).filter
          (fun e => decide (e.2 = n)) =
        (subreddit_activity posts comments).filter (fun e => decide (e.2 = n))) ∧
    (posts ≠ [] ∨ comments ≠ [] →
      (generate_statistics posts comments).top_subreddits ≠ [] ∧
      (generate_statistics posts comments).most_active_subreddit =
        ((generate_statistics posts comments).top_subreddits).head?.map Prod.fst) := by
  refine ⟨?_, ?_, ?_, ?_, ?_⟩
  · simp [generate_statistics, List.length_take]
  · have h := sortDesc_pairwise (fun e : String × Nat => e.2) (subreddit_activity posts comments)
    exact List.Pairwise.sublist (List.take_sublist 10 _) h
  · exact foldl_bump_keys _ []
  · intro n
    exact sortDesc_stable _ n _
  · intro h
    constructor
    · have hact : subreddit_activity posts comments ≠ [] := by
        apply foldl_bump_ne_nil _ [] (Or.inr ?_)
        intro habs
        rcases List.append_eq_nil.mp habs with ⟨h1, h2⟩
        rcases h with h | h
        · exact h (List.map_eq_nil_iff.mp h1)
        · exact h (List.map_eq_nil_iff.mp h2)
      have hlen : (sortDesc (fun e : String × Nat => e.2)
          (subreddit_activity posts comments)).length =
          (subreddit_activity posts comments).length :=
        (sortDesc_perm _ _).length_eq
      simp only [generate_statistics]
      intro habs
      apply hact
      have : (sortDesc (fun e : String × Nat => e.2)
          (subreddit_activity posts comments)) = [] := by
        cases hs : sortDesc (fun e : String × Nat => e.2) (subreddit_activity posts comments) with
        | nil => rfl
        | cons a l => rw [hs] at habs; simp [List.take] at habs
      rw [this] at hlen
      exact List.length_eq_zero.mp hlen.symm
    · rfl

theorem startsWithL_append (pat l l₂ : List Char) (h : startsWithL pat l = true) :
    startsWithL pat (l ++ l₂) = true := by
  induction pat generalizing l with
  | nil => simp [startsWithL]
  | cons p ps ih =>
    cases l with
    | nil => simp [startsWithL] at h
    | cons c cs =>
      simp only [startsWithL, Bool.and_eq_true] at h ⊢
      exact ⟨h.1, ih cs h.2⟩

theorem hasSub_append_left (pat l₁ l₂ : List Char) (h : hasSub pat l₁ = true) :
    hasSub pat (l₁ ++ l₂) = true := by
  induction l₁ with
  | nil =>
    simp [hasSub] at h
    subst h
    cases l₂ <;> simp [hasSub, startsWithL]
  | cons c cs ih =>
    simp only [hasSub, Bool.or_eq_true] at h ⊢
    rcases h with h | h
    · exact Or.inl (startsWithL_append pat (c :: cs) l₂ h)
    · exact Or.inr (ih h)

theorem hasSub_append_right (pat l₁ l₂ : List Char) (h : hasSub pat l₂ = true) :
    hasSub pat (l₁ ++ l₂) = true := by
  induction l₁ with
  | nil => simpa using h
  | cons c cs ih =>
    simp only [List.cons_append, hasSub, Bool.or_eq_true]
    exact Or.inr ih

theorem containsStr_append_left (pat s t : String) (h : containsStr pat s = true) :
    containsStr pat (s ++ t) = true := by
  simp only [containsStr, String.data_append]
  exact hasSub_append_left pat.data s.data t.data h

theorem containsStr_append_right (pat s t : String) (h : containsStr pat t = true) :
    containsStr pat (s ++ t) = true := by
  simp only [containsStr, String.data_append]
  exact hasSub_append_right pat.data s.data t.data h

theorem personaCore_headers (sections : Facet → FacetResult) (basic : BasicInfo)
    (ud : UserData) (ts : String) :
    containsStr "DEMOGRAPHICS" (personaCore sections basic ud ts) = true ∧
    containsStr "PERSONALITY TRAITS" (personaCore sections basic ud ts) = true ∧
    containsStr "INTERESTS & HOBBIES" (personaCore sections basic ud ts) = true ∧
    containsStr "BEHAVIORS & HABITS" (personaCore sections basic ud ts) = true ∧
    containsStr "MOTIVATIONS & GOALS" (personaCore sections basic ud ts) = true ∧
    containsStr "FRUSTRATIONS & PAIN POINTS" (personaCore sections basic ud ts) = true := by
  refine ⟨?_, ?_, ?_, ?_, ?_, ?_⟩ <;>
    simp only [personaCore] <;>
    (repeat first
      | (apply containsStr_append_right ; decide)
      | apply containsStr_append_left)

theorem containsStr_format_of_core (pat : String) (sections : Facet → FacetResult)
    (basic : BasicInfo) (ud : UserData) (incl : Bool) (ts : String)
    (h : containsStr pat (personaCore sections basic ud ts) = true) :
    containsStr pat (format_persona sections basic ud incl ts) = true := by
  unfold format_persona
  apply containsStr_append_left
  split
  · exact containsStr_append_left _ _ _ h
  · exact h

theorem format_persona_headers (sections : Facet → FacetResult) (basic : BasicInfo)
    (ud : UserData) (incl : Bool) (ts : String) :
    containsStr "DEMOGRAPHICS" (format_persona sections basic ud incl ts) = true ∧
    containsStr "PERSONALITY TRAITS" (format_persona sections basic ud incl ts) = true ∧
    containsStr "INTERESTS & HOBBIES" (format_persona sections basic ud incl ts) = true ∧
    containsStr "BEHAVIORS & HABITS" (format_persona sections basic ud incl ts) = true ∧
    containsStr "MOTIVATIONS & GOALS" (format_persona sections basic ud incl ts) = true ∧
    containsStr "FRUSTRATIONS & PAIN POINTS" (format_persona sections basic ud incl ts) = true := by
  obtain ⟨h1, h2, h3, h4, h5, h6⟩ := personaCore_headers sections basic ud ts
  exact ⟨containsStr_format_of_core _ _ _ _ _ _ h1,
    containsStr_format_of_core _ _ _ _ _ _ h2,
    containsStr_format_of_core _ _ _ _ _ _ h3,
    containsStr_format_of_core _ _ _ _ _ _ h4,
    containsStr_format_of_core _ _ _ _ _ _ h5,
    containsStr_format_of_core _ _ _ _ _ _ h6⟩

/-- C6: citation grounding returns at most 5 records, which are exactly the
first 5 items of the corpus in corpus order (all posts, then all comments),
each copied field-by-field from its source item; an empty corpus yields the
empty list. -/
theorem extract_citations_spec (analysis : String) (ud : UserData) :
    (extract_citations analysis ud).length ≤ 5 ∧
    extract_citations analysis ud =
      ((ud.posts.map postCitation) ++ (ud.comments.map commentCitation)).take 5 ∧
    (ud.posts = [] → ud.comments = [] → extract_citations analysis ud = []) := by
  refine ⟨?_, rfl, ?_⟩
  · simp only [extract_citations, List.length_take]
    omega
  · intro h1 h2
    simp [extract_citations, h1, h2]

theorem extract_citations_spec_witness :
    extract_citations "some generated analysis" emptyUser = [] :=
  (extract_citations_spec "some generated analysis" emptyUser).2.2 rfl rfl

/-- C8: citation grounding never depends on the generated analysis text:
for one corpus, any two analysis strings yield identical citation lists. -/
theorem extract_citations_noninterference (ud : UserData) (a1 a2 : String) :
    extract_citations a1 ud = extract_citations a2 ud := rfl

/-- C1 (counterexample): on a corpus with zero analyzable items the
generator does not produce a persona document at all — it returns the bare
string "Unable to generate persona: No content available", which contains
neither the facet sections nor the disclaimer. -/
theorem generate_persona_empty_no_document :
    generate_persona 10 true emptyUser fineBackend "2024-01-01 00:00:00" =
      "Unable to generate persona: No content available" ∧
    containsStr "DISCLAIMER"
      (generate_persona 10 true emptyUser fineBackend "2024-01-01 00:00:00") = false ∧
    containsStr "PERSONALITY TRAITS"
      (generate_persona 10 true emptyUser fineBackend "2024-01-01 00:00:00") = false ∧
    containsStr "BASIC INFORMATION"
      (generate_persona 10 true emptyUser fineBackend "2024-01-01 00:00:00") = false := by
  refine ⟨by decide, by decide, by decide, by decide⟩

/-- C1 (amended): an empty corpus yields empty evidence text, and empty
evidence text makes `generate_persona` abort early with the fixed
"Unable to generate persona" message instead of invoking the backend and
rendering a document. -/
theorem generate_persona_empty_aborts (minLen : Nat) (inclCitations : Bool)
    (ud : UserData) (backend : Facet → String → Except Unit String) (ts : String)
    (hp : ud.posts = []) (hc : ud.comments = []) :
    extract_content_for_analysis minLen ud = "" ∧
    generate_persona minLen inclCitations ud backend ts =
      "Unable to generate persona: No content available" := by
  have h : extract_content_for_analysis minLen ud = "" := by
    simp [extract_content_for_analysis, hp, hc, String.intercalate]
  exact ⟨h, by simp [generate_persona, h]⟩

theorem generate_persona_empty_aborts_witness :
    extract_content_for_analysis 10 emptyUser = "" ∧
    generate_persona 10 true emptyUser fineBackend "2024-01-01 00:00:00" =
      "Unable to generate persona: No content available" :=
  generate_persona_empty_aborts 10 true emptyUser fineBackend "2024-01-01 00:00:00" rfl rfl

/-- C7: if the backend raises for the personality facet while the other
five facets succeed, the rendered document still contains all six facet
section headers, the personality section is the fixed fallback string with
no citations, and the other five facet results are exactly what any backend
agreeing on those facets produces. -/
theorem personality_fallback
    (minLen : Nat) (incl : Bool) (ud : UserData) (ts : String)
    (backend backend' : Facet → String → Except Unit String)
    (hfail : ∀ s, backend .personality s = .error ())
    (hok : ∀ f, f ≠ Facet.personality → ∀ s, ∃ r, backend f s = .ok r)
    (hagree : ∀ f, f ≠ Facet.personality → ∀ s, backend' f s = backend f s)
    (hcontent : extract_content_for_analysis minLen ud ≠ "") :
    (analyze_facet .personality (extract_content_for_analysis minLen ud) incl ud
        backend).analysis = "Unable to analyze personality" ∧
    (analyze_facet .personality (extract_content_for_analysis minLen ud) incl ud
        backend).citations = [] ∧
    (∀ f, f ≠ Facet.personality →
      analyze_facet f (extract_content_for_analysis minLen ud) incl ud backend =
        analyze_facet f (extract_content_for_analysis minLen ud) incl ud backend') ∧
    containsStr "DEMOGRAPHICS" (generate_persona minLen incl ud backend ts) = true ∧
    containsStr "PERSONALITY TRAITS" (generate_persona minLen incl ud backend ts) = true ∧
    containsStr "INTERESTS & HOBBIES" (generate_persona minLen incl ud backend ts) = true ∧
    containsStr "BEHAVIORS & HABITS" (generate_persona minLen incl ud backend ts) = true ∧
    containsStr "MOTIVATIONS & GOALS" (generate_persona minLen incl ud backend ts) = true ∧
    containsStr "FRUSTRATIONS & PAIN POINTS" (generate_persona minLen incl ud backend ts)
        = true := by
  have hdoc : generate_persona minLen incl ud backend ts =
      format_persona
        (fun f => analyze_facet f (extract_content_for_analysis minLen ud) incl ud backend)
        (generate_basic_info ud) ud incl ts := by
    simp [generate_persona, hcontent]
  have hheaders := format_persona_headers
    (fun f => analyze_facet f (extract_content_for_analysis minLen ud) incl ud backend)
    (generate_basic_info ud) ud incl ts
  obtain ⟨g1, g2, g3, g4, g5, g6⟩ := hheaders
  refine ⟨?_, ?_, ?_, ?_, ?_, ?_, ?_, ?_, ?_⟩
  · simp [analyze_facet, hfail, fallbackText]
  · simp [analyze_facet, hfail]
  · intro f hf
    simp [analyze_facet, hagree f hf]
  · rw [hdoc]; exact g1
  · rw [hdoc]; exact g2
  · rw [hdoc]; exact g3
  · rw [hdoc]; exact g4
  · rw [hdoc]; exact g5
  · rw [hdoc]; exact g6

theorem personality_fallback_witness :
    (analyze_facet .personality (extract_content_for_analysis 10 sampleUser) true sampleUser
        failPersonalityBackend).analysis = "Unable to analyze personality" ∧
    (analyze_facet .personality (extract_content_for_analysis 10 sampleUser) true sampleUser
        failPersonalityBackend).citations = [] ∧
    (∀ f, f ≠ Facet.personality →
      analyze_facet f (extract_content_for_analysis 10 sampleUser) true sampleUser
          failPersonalityBackend =
        analyze_facet f (extract_content_for_analysis 10 sampleUser) true sampleUser
          fineBackend) ∧
    containsStr "DEMOGRAPHICS"
      (generate_persona 10 true sampleUser failPersonalityBackend "ts") = true ∧
    containsStr "PERSONALITY TRAITS"
      (generate_persona 10 true sampleUser failPersonalityBackend "ts") = true ∧
    containsStr "INTERESTS & HOBBIES"
      (generate_persona 10 true sampleUser failPersonalityBackend "ts") = true ∧
    containsStr "BEHAVIORS & HABITS"
      (generate_persona 10 true sampleUser failPersonalityBackend "ts") = true ∧
    containsStr "MOTIVATIONS & GOALS"
      (generate_persona 10 true sampleUser failPersonalityBackend "ts") = true ∧
    containsStr "FRUSTRATIONS & PAIN POINTS"
      (generate_persona 10 true sampleUser failPersonalityBackend "ts") = true :=
  personality_fallback 10 true sampleUser "ts" failPersonalityBackend fineBackend
    (fun _ => rfl)
    (fun f hf _ => ⟨"Looks fine.", by simp [failPersonalityBackend, fineBackend, hf]⟩)
    (fun f hf _ => by simp [failPersonalityBackend, fineBackend, hf])
    (by decide)

/-- C9 witness: a singleton corpus has a non-empty top list whose first tag
is the most active subreddit. -/
theorem top_subreddits_spec_witness :
    (generate_statistics [samplePost] []).top_subreddits ≠ [] ∧
    (generate_statistics [samplePost] []).most_active_subreddit =
      ((generate_statistics [samplePost] []).top_subreddits).head?.map Prod.fst :=
  (top_subreddits_spec [samplePost] []).2.2.2.2 (Or.inl (List.cons_ne_nil _ _))

set_option maxHeartbeats 2000000 in
theorem removeUrls_nil : removeUrls [] = [] := by
  rw [removeUrls.eq_def]

set_option maxHeartbeats 2000000 in
theorem removeUrls_cons (c : Char) (rest : List Char)
    (hne : startsWithL ['h','t','t','p'] (c :: rest) = false) :
    removeUrls (c :: rest) = c :: removeUrls rest := by
  rw [removeUrls.eq_def]
  split
  case h_1 _ c1 r1 heq =>
    injection heq with e1 e2
    subst e1; subst e2
    simp [startsWithL] at hne
  case h_2 _ c1 r1 heq =>
    injection heq with e1 e2
    subst e1; subst e2
    simp [startsWithL] at hne
  case h_3 _ c1 r1 _ _ heq =>
    injection heq with e1 e2
    subst e1; subst e2
    rfl
  case h_4 _ heq => simp at heq

set_option maxHeartbeats 2000000 in
theorem removeMentions_nil (m : Char) : removeMentions m [] = [] := by
  rw [removeMentions.eq_def]

set_option maxHeartbeats 2000000 in
theorem removeMentions_cons (m : Char) (c : Char) (rest : List Char)
    (hne : startsWithL ['/', m, '/'] (c :: rest) = false) :
    removeMentions m (c :: rest) = c :: removeMentions m rest := by
  rw [removeMentions.eq_def]
  split
  case h_1 _ x c1 r1 heq =>
    injection heq with e1 e2
    subst e1; subst e2
    simp [startsWithL] at hne
    rw [if_neg]
    intro hg
    rw [Bool.and_eq_true] at hg
    exact hne (of_decide_eq_true hg.1).symm
  case h_2 _ c1 r1 _ heq =>
    injection heq with e1 e2
    subst e1; subst e2
    rfl
  case h_3 _ heq => simp at heq

set_option maxHeartbeats 2000000 in
theorem unwrapSingle_nil (m : Char) : unwrapSingle m [] = [] := by
  rw [unwrapSingle.eq_def]

set_option maxHeartbeats 2000000 in
theorem unwrapSingle_cons (m c : Char) (rest : List Char) (hne : ¬ c = m) :
    unwrapSingle m (c :: rest) = c :: unwrapSingle m rest := by
  rw [unwrapSingle.eq_def]
  split
  case h_1 _ a r heq =>
    injection heq with e1 e2
    subst e1; subst e2
    rw [if_neg hne]
  case h_2 _ heq => simp at heq

set_option maxHeartbeats 2000000 in
theorem unwrapDouble_nil (m : Char) : unwrapDouble m [] = [] := by
  rw [unwrapDouble.eq_def]

set_option maxHeartbeats 2000000 in
theorem unwrapDouble_cons (m c : Char) (rest : List Char) (hne : ¬ c = m) :
    unwrapDouble m (c :: rest) = c :: unwrapDouble m rest := by
  rw [unwrapDouble.eq_def]
  split
  case h_1 _ a b r2 heq =>
    injection heq with e1 e2
    subst e1; subst e2
    rw [if_neg]
    intro hg
    rw [Bool.and_eq_true] at hg
    exact hne (of_decide_eq_true hg.1)
  case h_2 _ a heq =>
    injection heq with e1 e2
    subst e1; subst e2
    rw [unwrapDouble_nil]
  case h_3 _ heq => simp at heq

theorem decodeGt_nil : decodeGt [] = [] := by
  rw [decodeGt.eq_def]

theorem decodeGt_cons (c : Char) (rest : List Char) (hne : ¬ c = '&') :
    decodeGt (c :: rest) = c :: decodeGt rest := by
  rw [decodeGt.eq_def]
  split
  case h_1 _ r heq =>
    injection heq with e1 e2
    exact absurd e1 hne
  case h_2 _ c1 r1 _ heq =>
    injection heq with e1 e2
    subst e1; subst e2
    rfl
  case h_3 _ heq => simp at heq

theorem decodeLt_nil : decodeLt [] = [] := by
  rw [decodeLt.eq_def]

theorem decodeLt_cons (c : Char) (rest : List Char) (hne : ¬ c = '&') :
    decodeLt (c :: rest) = c :: decodeLt rest := by
  rw [decodeLt.eq_def]
  split
  case h_1 _ r heq =>
    injection heq with e1 e2
    exact absurd e1 hne
  case h_2 _ c1 r1 _ heq =>
    injection heq with e1 e2
    subst e1; subst e2
    rfl
  case h_3 _ heq => simp at heq

theorem decodeAmp_nil : decodeAmp [] = [] := by
  rw [decodeAmp.eq_def]

theorem decodeAmp_cons (c : Char) (rest : List Char) (hne : ¬ c = '&') :
    decodeAmp (c :: rest) = c :: decodeAmp rest := by
  rw [decodeAmp.eq_def]
  split
  case h_1 _ r heq =>
    injection heq with e1 e2
    exact absurd e1 hne
  case h_2 _ c1 r1 _ heq =>
    injection heq with e1 e2
    subst e1; subst e2
    rfl
  case h_3 _ heq => simp at heq

theorem removeUrls_id (l : List Char) (h : hasSub ['h','t','t','p'] l = false) :
    removeUrls l = l := by
  induction l with
  | nil => exact removeUrls_nil
  | cons c rest ih =>
    simp only [hasSub, Bool.or_eq_false_iff] at h
    rw [removeUrls_cons c rest h.1, ih h.2]

theorem removeMentions_id (m : Char) (l : List Char)
    (h : hasSub ['/', m, '/'] l = false) :
    removeMentions m l = l := by
  induction l with
  | nil => exact removeMentions_nil m
  | cons c rest ih =>
    simp only [hasSub, Bool.or_eq_false_iff] at h
    rw [removeMentions_cons m c rest h.1, ih h.2]

theorem unwrapSingle_id (m : Char) (l : List Char) (h : ∀ c ∈ l, ¬ c = m) :
    unwrapSingle m l = l := by
  induction l with
  | nil => exact unwrapSingle_nil m
  | cons c rest ih =>
    rw [unwrapSingle_cons m c rest (h c (List.mem_cons_self c rest)),
      ih (fun x hx => h x (List.mem_cons_of_mem c hx))]

theorem unwrapDouble_id (m : Char) (l : List Char) (h : ∀ c ∈ l, ¬ c = m) :
    unwrapDouble m l = l := by
  induction l with
  | nil => exact unwrapDouble_nil m
  | cons c rest ih =>
    rw [unwrapDouble_cons m c rest (h c (List.mem_cons_self c rest)),
      ih (fun x hx => h x (List.mem_cons_of_mem c hx))]

theorem decodeGt_id (l : List Char) (h : ∀ c ∈ l, ¬ c = '&') :
    decodeGt l = l := by
  induction l with
  | nil => exact decodeGt_nil
  | cons c rest ih =>
    rw [decodeGt_cons c rest (h c (List.mem_cons_self c rest)),
      ih (fun x hx => h x (List.mem_cons_of_mem c hx))]

theorem decodeLt_id (l : List Char) (h : ∀ c ∈ l, ¬ c = '&') :
    decodeLt l = l := by
  induction l with
  | nil => exact decodeLt_nil
  | cons c rest ih =>
    rw [decodeLt_cons c rest (h c (List.mem_cons_self c rest)),
      ih (fun x hx => h x (List.mem_cons_of_mem c hx))]

theorem decodeAmp_id (l : List Char) (h : ∀ c ∈ l, ¬ c = '&') :
    decodeAmp l = l := by
  induction l with
  | nil => exact decodeAmp_nil
  | cons c rest ih =>
    rw [decodeAmp_cons c rest (h c (List.mem_cons_self c rest)),
      ih (fun x hx => h x (List.mem_cons_of_mem c hx))]

theorem dropWhile_eq_self_of_head {p : Char → Bool} {c : Char} {rest : List Char}
    (h : p c = false) : (c :: rest).dropWhile p = c :: rest := by
  simp [List.dropWhile_cons, h]

theorem dropWhile_eq_self_of_all {p : Char → Bool} {l : List Char}
    (h : ∀ c ∈ l, p c = false) : l.dropWhile p = l := by
  cases l with
  | nil => rfl
  | cons c rest => exact dropWhile_eq_self_of_head (h c (List.mem_cons_self c rest))

theorem takeWhile_all {p : Char → Bool} {l : List Char}
    (h : ∀ c ∈ l, p c = true) : l.takeWhile p = l := by
  induction l with
  | nil => rfl
  | cons c rest ih =>
    rw [List.takeWhile_cons, if_pos (h c (List.mem_cons_self c rest)),
      ih (fun x hx => h x (List.mem_cons_of_mem c hx))]

theorem dropWhile_all {p : Char → Bool} {l : List Char}
    (h : ∀ c ∈ l, p c = true) : l.dropWhile p = [] := by
  induction l with
  | nil => rfl
  | cons c rest ih =>
    rw [List.dropWhile_cons, if_pos (h c (List.mem_cons_self c rest)),
      ih (fun x hx => h x (List.mem_cons_of_mem c hx))]

theorem dropWhile_head_false {p : Char → Bool} :
    ∀ {l : List Char} {c : Char} {rest : List Char},
      l.dropWhile p = c :: rest → p c = false := by
  intro l
  induction l with
  | nil => intro c rest h; simp at h
  | cons a l' ih =>
    intro c rest h
    rw [List.dropWhile_cons] at h
    split at h
    · exact ih h
    · rename_i hpa
      injection h with e1 _
      subst e1
      simpa using hpa

theorem splitWs_eq_nil {l : List Char} (h : l.dropWhile pyIsSpace = []) :
    splitWs l = [] := by
  rw [splitWs.eq_def]
  split
  · rfl
  · rename_i c rest heq
    rw [h] at heq
    cases heq

theorem splitWs_eq_cons {l : List Char} {c : Char} {rest : List Char}
    (h : l.dropWhile pyIsSpace = c :: rest) :
    splitWs l = (c :: rest.takeWhile (fun d => !pyIsSpace d)) ::
      splitWs (rest.dropWhile (fun d => !pyIsSpace d)) := by
  rw [splitWs.eq_def]
  split
  · rename_i heq
    rw [h] at heq
    cases heq
  · rename_i c' rest' heq
    rw [h] at heq
    injection heq with e1 e2
    subst e1; subst e2
    rfl

theorem splitWs_nil_eq : splitWs [] = [] :=
  splitWs_eq_nil rfl

theorem splitWs_cons_space (l : List Char) : splitWs (' ' :: l) = splitWs l := by
  have hd : (' ' :: l).dropWhile pyIsSpace = l.dropWhile pyIsSpace := by
    rw [List.dropWhile_cons]
    simp [pyIsSpace]
  cases hdw : l.dropWhile pyIsSpace with
  | nil => rw [splitWs_eq_nil (hd.trans hdw), splitWs_eq_nil hdw]
  | cons c rest => rw [splitWs_eq_cons (hd.trans hdw), splitWs_eq_cons hdw]

theorem splitWs_wf (l : List Char) : ∀ t ∈ splitWs l, tokenWF t := by
  induction l using splitWs.induct with
  | case1 x hx =>
    rw [splitWs_eq_nil hx]
    intro t ht
    cases ht
  | case2 x c rest hx ih =>
    rw [splitWs_eq_cons hx]
    intro t ht
    rcases List.mem_cons.mp ht with rfl | ht'
    · constructor
      · simp
      · intro d hd
        rcases List.mem_cons.mp hd with rfl | hd'
        · exact dropWhile_head_false hx
        · have := List.mem_takeWhile_imp hd'
          simpa using this
    · exact ih t ht'

theorem joinSp_cons_cons (t t' : List Char) (ts : List (List Char)) :
    joinSp (t :: t' :: ts) = t ++ ' ' :: joinSp (t' :: ts) := rfl

theorem joinSp_ne_nil (t : List Char) (ts : List (List Char)) (h : t ≠ []) :
    joinSp (t :: ts) ≠ [] := by
  cases ts with
  | nil => simpa [joinSp] using h
  | cons t' ts' =>
    rw [joinSp_cons_cons]
    intro habs
    rcases List.append_eq_nil.mp habs with ⟨h1, _⟩
    exact h h1

theorem takeWhile_token (t J : List Char) (ht : ∀ c ∈ t, pyIsSpace c = false) :
    (t ++ ' ' :: J).takeWhile (fun d => !pyIsSpace d) = t := by
  induction t with
  | nil => simp [List.takeWhile_cons, pyIsSpace]
  | cons a t' ih =>
    rw [List.cons_append, List.takeWhile_cons,
      if_pos (by simpa using ht a (List.mem_cons_self a t')),
      ih (fun x hx => ht x (List.mem_cons_of_mem a hx))]

theorem dropWhile_token (t J : List Char) (ht : ∀ c ∈ t, pyIsSpace c = false) :
    (t ++ ' ' :: J).dropWhile (fun d => !pyIsSpace d) = ' ' :: J := by
  induction t with
  | nil => simp [List.dropWhile_cons, pyIsSpace]
  | cons a t' ih =>
    rw [List.cons_append, List.dropWhile_cons,
      if_pos (by simpa using ht a (List.mem_cons_self a t')),
      ih (fun x hx => ht x (List.mem_cons_of_mem a hx))]

theorem splitWs_joinSp : ∀ ts : List (List Char), (∀ t ∈ ts, tokenWF t) →
    splitWs (joinSp ts) = ts := by
  intro ts
  induction ts with
  | nil => intro _; exact splitWs_nil_eq
  | cons t ts' ih =>
    intro h
    obtain ⟨hne, hchars⟩ := h t (List.mem_cons_self t ts')
    cases t with
    | nil => exact absurd rfl hne
    | cons c cs =>
      have hc : pyIsSpace c = false := hchars c (List.mem_cons_self c cs)
      have hcs : ∀ x ∈ cs, pyIsSpace x = false :=
        fun x hx => hchars x (List.mem_cons_of_mem c hx)
      cases ts' with
      | nil =>
        show splitWs (c :: cs) = [c :: cs]
        rw [splitWs_eq_cons (dropWhile_eq_self_of_head hc),
          takeWhile_all (by simpa using hcs),
          dropWhile_all (by simpa using hcs), splitWs_nil_eq]
      | cons t' ts'' =>
        rw [joinSp_cons_cons]
        have hdw : ((c :: cs) ++ ' ' :: joinSp (t' :: ts'')).dropWhile pyIsSpace =
            (c :: cs) ++ ' ' :: joinSp (t' :: ts'') := by
          rw [List.cons_append]
          exact dropWhile_eq_self_of_head hc
        rw [splitWs_eq_cons (show ((c :: cs) ++ ' ' :: joinSp (t' :: ts'')).dropWhile
            pyIsSpace = c :: (cs ++ ' ' :: joinSp (t' :: ts'')) by
          rw [hdw, List.cons_append])]
        rw [takeWhile_token cs _ hcs, dropWhile_token cs _ hcs, splitWs_cons_space]
        rw [ih (fun x hx => h x (List.mem_cons_of_mem (c :: cs) hx))]

theorem joinSp_dropWhile_self (ts : List (List Char)) (h : ∀ t ∈ ts, tokenWF t) :
    (joinSp ts).dropWhile pyIsSpace = joinSp ts := by
  cases ts with
  | nil => rfl
  | cons t ts' =>
    obtain ⟨hne, hchars⟩ := h t (List.mem_cons_self t ts')
    cases t with
    | nil => exact absurd rfl hne
    | cons c cs =>
      have hc : pyIsSpace c = false := hchars c (List.mem_cons_self c cs)
      cases ts' with
      | nil => exact dropWhile_eq_self_of_head hc
      | cons t' ts'' =>
        rw [joinSp_cons_cons, List.cons_append]
        exact dropWhile_eq_self_of_head hc

theorem joinSp_reverse_dropWhile_self :
    ∀ ts : List (List Char), (∀ t ∈ ts, tokenWF t) →
      (joinSp ts).reverse.dropWhile pyIsSpace = (joinSp ts).reverse := by
  intro ts
  induction ts with
  | nil => intro _; rfl
  | cons t ts' ih =>
    intro h
    obtain ⟨hne, hchars⟩ := h t (List.mem_cons_self t ts')
    cases ts' with
    | nil =>
      show (joinSp [t]).reverse.dropWhile pyIsSpace = (joinSp [t]).reverse
      apply dropWhile_eq_self_of_all
      intro x hx
      exact hchars x (by simpa [joinSp] using (List.mem_reverse.mp (by simpa [joinSp] using hx)))
    | cons t' ts'' =>
      have hJ := ih (fun x hx => h x (List.mem_cons_of_mem t hx))
      have hJne : joinSp (t' :: ts'') ≠ [] :=
        joinSp_ne_nil t' ts'' (h t' (List.mem_cons_of_mem t (List.mem_cons_self t' ts''))).1
      rw [joinSp_cons_cons, List.reverse_append]
      cases hrev : (joinSp (t' :: ts'')).reverse with
      | nil =>
        exact absurd (by simpa using congrArg List.reverse hrev) hJne
      | cons d ds =>
        rw [hrev] at hJ
        have hd : pyIsSpace d = false := by
          by_contra hb
          rw [Bool.not_eq_false] at hb
          rw [List.dropWhile_cons, if_pos hb] at hJ
          have := length_dropWhile_le pyIsSpace ds
          rw [hJ] at this
          simp at this
        rw [List.reverse_cons, hrev, List.cons_append, List.cons_append]
        exact dropWhile_eq_self_of_head hd

theorem stripWs_joinSp (ts : List (List Char)) (h : ∀ t ∈ ts, tokenWF t) :
    stripWs (joinSp ts) = joinSp ts := by
  rw [stripWs, joinSp_dropWhile_self ts h, joinSp_reverse_dropWhile_self ts h,
    List.reverse_reverse]

theorem collapse_idem (z : List Char) :
    stripWs (joinSp (splitWs (stripWs (joinSp (splitWs z))))) =
      stripWs (joinSp (splitWs z)) := by
  have wf := splitWs_wf z
  have h1 : stripWs (joinSp (splitWs z)) = joinSp (splitWs z) := stripWs_joinSp _ wf
  rw [h1, splitWs_joinSp _ wf, h1]

theorem string_mk_data (s : String) : String.mk s.data = s := rfl

theorem cleanChars_id_of_triggerFree (z y : List Char)
    (hy : y = stripWs (joinSp (splitWs z))) (h : triggerFree y = true) :
    cleanChars y = y := by
  simp only [triggerFree, Bool.and_eq_true, Bool.not_eq_true', List.all_eq_true] at h
  obtain ⟨⟨⟨h1, h2⟩, h3⟩, h4⟩ := h
  have hstar : ∀ c ∈ y, ¬ c = '*' := by
    intro c hc
    have := h4 c hc
    simp at this
    exact this.1.1
  have htilde : ∀ c ∈ y, ¬ c = '~' := by
    intro c hc
    have := h4 c hc
    simp at this
    exact this.1.2
  have hamp : ∀ c ∈ y, ¬ c = '&' := by
    intro c hc
    have := h4 c hc
    simp at this
    exact this.2
  show stripWs (joinSp (splitWs (decodeAmp (decodeLt (decodeGt (unwrapDouble '~'
    (unwrapSingle '*' (unwrapDouble '*' (removeMentions 'r' (removeMentions 'u'
    (removeUrls y))))))))))) = y
  rw [removeUrls_id y h1, removeMentions_id 'u' y h2, removeMentions_id 'r' y h3,
    unwrapDouble_id '*' y hstar, unwrapSingle_id '*' y hstar, unwrapDouble_id '~' y htilde,
    decodeGt_id y hamp, decodeLt_id y hamp, decodeAmp_id y hamp, hy]
  exact collapse_idem z

/-- C3 (amended): text normalization is idempotent on every input whose
normalized output is free of the rewrite triggers — no `http`, `/u/` or
`/r/` substring and none of the characters `*`, `~`, `&` — i.e. whenever
the first pass leaves nothing for a second pass but whitespace collapsing,
which is idempotent.  It is not idempotent in general (see the
counterexample below). -/
theorem clean_text_idempotent_of_triggerFree (x : String)
    (h : triggerFree (clean_text x).data = true) :
    clean_text (clean_text x) = clean_text x := by
  by_cases hx : x = ""
  · subst hx
    rfl
  · by_cases hy : clean_text x = ""
    · rw [hy]
      decide
    · have e1 : clean_text x = String.mk (cleanChars x.data) := by
        unfold clean_text
        rw [if_neg hx]
      have hid : cleanChars (clean_text x).data = (clean_text x).data :=
        cleanChars_id_of_triggerFree
          (decodeAmp (decodeLt (decodeGt (unwrapDouble '~' (unwrapSingle '*'
            (unwrapDouble '*' (removeMentions 'r' (removeMentions 'u'
              (removeUrls x.data)))))))))
          (clean_text x).data (by rw [e1]; rfl) h
      generalize hgen : clean_text x = y at hy hid
      unfold clean_text
      rw [if_neg hy, hid]

unseal splitWs removeUrls removeMentions unwrapDouble unwrapSingle

/-- C3 (counterexample): normalization is not idempotent as stated — entity
decoding can manufacture a new entity that only the next pass decodes:
`_clean_text("&amp;gt;") = "&gt;"` but `_clean_text("&gt;") = ">"`. -/
theorem clean_text_not_idempotent :
    clean_text "&amp;gt;" = "&gt;" ∧ clean_text "&gt;" = ">" ∧
    clean_text (clean_text "&amp;gt;") ≠ clean_text "&amp;gt;" :=
  ⟨by decide, by decide, by decide⟩

/-- Witness for the amended C3 theorem at a concrete whitespace-heavy
input. -/
theorem clean_text_idem_witness :
    triggerFree (clean_text "  hello   world again ").data = true ∧
    clean_text (clean_text "  hello   world again ") = clean_text "  hello   world again " :=
  ⟨by decide, clean_text_idempotent_of_triggerFree "  hello   world again " (by decide)⟩

end RedditPersona
